import Mathlib

/-!
Shallow embedding of the rust_stack_lang interpreter core
(src/program/memory.rs, src/program/mod.rs, src/io.rs, src/token.rs).

Conventions:
* Machine words (`usize`) and bytes (`u8`) are modelled as `Nat`; overflow and
  index panics of Rust are modelled by returning `none` (the run aborts).
* The operand stack is a `List Nat` with the TOP of the stack at the HEAD of
  the list (Rust's `Vec` keeps the top at the end; the list is reversed).
* The output sink is modelled as a trace of events, in emission order.
-/

namespace StackLang

/-- The value of Rust's `usize::MAX` on a 64-bit target. -/
def USIZE_MAX : Nat := 2 ^ 64 - 1

/-- `Memory` from src/program/memory.rs: a byte buffer plus a free-extent
list of `(start, length)` pairs. -/
structure Memory where
  memory : List Nat
  free : List (Nat × Nat)
deriving DecidableEq, Repr

/-- `Memory::new`: empty buffer, one free extent covering the whole space. -/
def Memory.new : Memory := ⟨[], [(0, USIZE_MAX)]⟩

/-- `Vec::resize(self.len().max(n), 0)`: grow the buffer with zero bytes up
to length `n` (never shrink). -/
def resizeTo (l : List Nat) (n : Nat) : List Nat :=
  l ++ List.replicate (n - l.length) 0

/-- Write the bytes of `data` into `l` at consecutive indices starting at
`addr` (the write loop of `Memory::extend`). -/
def writeBytes (l : List Nat) (addr : Nat) (data : List Nat) : List Nat :=
  match data with
  | [] => l
  | d :: ds => writeBytes (l.set addr d) (addr + 1) ds

/-- Zero `len` bytes starting at `addr` (the loop of `Memory::remove`). -/
def zeroRange (l : List Nat) (addr len : Nat) : List Nat :=
  writeBytes l addr (List.replicate len 0)

/-- First-fit search of `Memory::extend`/`Memory::alloc`
(`free.iter().position(|(_, free)| free >= n)` plus the entry found):
returns `(index, start, length)` of the first extent of length ≥ `n`. -/
def findFit (free : List (Nat × Nat)) (n : Nat) : Option (Nat × Nat × Nat) :=
  match free with
  | [] => none
  | (a, r) :: rest =>
    if n ≤ r then some (0, a, r)
    else (findFit rest n).map (fun x => (x.1 + 1, x.2.1, x.2.2))

/-- `Memory::push`: write one byte at the start of the FIRST free extent,
advance that extent, dropping it when exhausted; returns the address written.
`none` models the `unwrap` panics (empty free list, `remaining -= 1`
underflow). -/
def Memory.push (m : Memory) (value : Nat) : Option (Nat × Memory) :=
  match m.free with
  | [] => none
  | (address, remaining) :: rest =>
    if remaining = 0 then none
    else
      let mem := (resizeTo m.memory (address + 1)).set address value
      let free := if remaining - 1 = 0 then rest
                  else (address + 1, remaining - 1) :: rest
      some (address, ⟨mem, free⟩)

/-- `Memory::extend`: first-fit an extent of length ≥ `data.length`, write
the bytes at its start, shrink the chosen extent, and — exactly as the code
does — when the chosen extent's remaining length becomes 0, execute
`self.free.remove(0)`, i.e. drop the extent at index 0 (NOT the chosen
index). Returns the starting address. -/
def Memory.extend (m : Memory) (data : List Nat) : Option (Nat × Memory) :=
  match findFit m.free data.length with
  | none => none
  | some (index, address, remaining) =>
    let mem := writeBytes (resizeTo m.memory (address + data.length)) address data
    let free1 := m.free.set index (address + data.length, remaining - data.length)
    let free := if remaining - data.length = 0 then free1.tail else free1
    some (address, ⟨mem, free⟩)

/-- `Memory::alloc`: same first-fit search as `extend`, resizing (and so
zero-filling) the buffer up to `address + len` and decrementing the chosen
extent's remaining length — but, exactly as the code does, WITHOUT advancing
the extent's start (`*address` is only incremented by `extend`'s write loop
and by `push`; `alloc` has no such loop), and with the same
`free.remove(0)` when the chosen extent's length reaches 0. -/
def Memory.alloc (m : Memory) (len : Nat) : Option (Nat × Memory) :=
  match findFit m.free len with
  | none => none
  | some (index, address, remaining) =>
    let mem := resizeTo m.memory (address + len)
    let free1 := m.free.set index (address, remaining - len)
    let free := if remaining - len = 0 then free1.tail else free1
    some (address, ⟨mem, free⟩)

/-- `Memory::get`: `self.memory.get(index)` — an out-of-range read yields
`none` (the buffer is NOT grown). -/
def Memory.get (m : Memory) (index : Nat) : Option Nat :=
  m.memory.get? index

/-- `Memory::set`: `*self.memory.get_mut(index).unwrap() = value` — fatal
(`none`) when `index` is past the end of the buffer. -/
def Memory.set (m : Memory) (index value : Nat) : Option Memory :=
  if index < m.memory.length then some ⟨m.memory.set index value, m.free⟩
  else none

/-- Lexicographic order on `(start, length)` pairs, as `sort_unstable`
orders `(usize, usize)`. -/
def lePair (x y : Nat × Nat) : Bool :=
  x.1 < y.1 || (x.1 = y.1 && x.2 ≤ y.2)

/-- Insert into a `lePair`-sorted list. -/
def insertPair (x : Nat × Nat) : List (Nat × Nat) → List (Nat × Nat)
  | [] => [x]
  | y :: ys => if lePair x y then x :: y :: ys else y :: insertPair x ys

/-- Sort a pair list lexicographically (`self.free.sort_unstable()`). -/
def sortPairs (l : List (Nat × Nat)) : List (Nat × Nat) :=
  l.foldr insertPair []

/-- The single left-to-right coalescing pass of `Memory::remove`: `last` is
the last entry of `new_free`; an extent starting exactly at `last`'s end is
merged into it, any other extent is emitted and becomes the new `last`. -/
def coalesce (last : Nat × Nat) : List (Nat × Nat) → List (Nat × Nat)
  | [] => [last]
  | (a, r) :: rest =>
    if a = last.1 + last.2 then coalesce (last.1, last.2 + r) rest
    else last :: coalesce (a, r) rest

/-- `Memory::remove`: zero the `len` bytes at `address` (indexing panics —
`none` — if the range reaches past the buffer and `len > 0`), push
`(address, len)` onto the free list, sort it, and coalesce adjacent
extents in one pass. -/
def Memory.remove (m : Memory) (address len : Nat) : Option Memory :=
  if len = 0 ∨ address + len ≤ m.memory.length then
    let mem := zeroRange m.memory address len
    match sortPairs (m.free ++ [(address, len)]) with
    | [] => none
    | f :: rest => some ⟨mem, coalesce f rest⟩
  else none

/-- The free-list invariant claimed by the spec: extents ascending by start,
pairwise disjoint, no zero-length entries, and no two extents adjacent
(`a.start + a.length = b.start`); `a + r < b` for consecutive entries
captures ascending + disjoint + non-adjacent at once. -/
def freeInvariant : List (Nat × Nat) → Bool
  | [] => true
  | [(_, r)] => r ≠ 0
  | (a, r) :: (b, s) :: rest =>
    r ≠ 0 && a + r < b && freeInvariant ((b, s) :: rest)

/-! ## The AST (src/token.rs) -/

/-- `MathOperator`. -/
inductive MathOp | add | sub | mul
deriving DecidableEq, Repr

/-- `CmpOperator`. -/
inductive CmpOp | less | greater | equal
deriving DecidableEq, Repr

/-- `StackOperation`. -/
inductive StackOp | dup | swap | over | rot | drop
deriving DecidableEq, Repr

/-- `MemoryOperation`. -/
inductive MemOp
  | pushBytes (data : List Nat)
  | storeByte
  | loadByte
  | free
  | alloc
deriving DecidableEq, Repr

/-- `Token`: the AST node type. `brk`/`cont` stand for `Token::Break` /
`Token::Continue`, `letRef` for `Token::Let(name)` (a bound-name
reference). -/
inductive Token where
  | push (value : Nat)
  | math (op : MathOp)
  | cmp (op : CmpOp)
  | stack (op : StackOp)
  | memOp (op : MemOp)
  | functionCall (name : String)
  | ifBlock (trueBlock falseBlock : List Token)
  | loopBlock (body : List Token)
  | whileBlock (cond body : List Token)
  | brk
  | cont
  | letBlock (body : List Token) (names : List String)
  | letRef (name : String)
  | putc
  | putu
  | debug

/-! ## The evaluator (src/program/mod.rs) -/

/-- `InterpretationStatus`: the tri-state non-local control signal. -/
inductive Status | normal | brk | cont
deriving DecidableEq, Repr

/-- One event on the output side: what `Putc`/`Putu`/`Debug` emit, plus the
flush calls (`io.flush()` on the sink vs `std::io::stdout().flush()`). -/
inductive OutEvent
  | char (c : Nat)
  | num (n : Nat)
  | debugDump
  | flushSink
  | flushStdout
deriving DecidableEq, Repr

/-- The mutable state threaded through `interpret_segment`: operand stack
(top at head), the shared `Memory`, and the output trace. The variable
environment is NOT part of this state: in the code it is an immutable
per-call argument. -/
structure St where
  stack : List Nat
  mem : Memory
  out : List OutEvent
deriving DecidableEq, Repr

/-- The variable environment (`&HashMap<String, usize>`): an association
list where the most recent insertion is at the head, looked up first. -/
abbrev Env := List (String × Nat)

/-- The function table (`HashMap<String, Vec<Token>>`). -/
abbrev FunMap := List (String × List Token)

/-- Result of running a segment: a final state and control status, a fatal
abort (`unwrap`/`expect`/index panic), or fuel exhaustion (a model artifact
standing for a run that is still going). -/
inductive Outcome where
  | ok (st : St) (status : Status)
  | fatal
  | oot
deriving DecidableEq, Repr

/-- Rust debug-profile checked `usize` arithmetic for
`MathOperator::{Add, Sub, Mul}`: overflow/underflow aborts. -/
def mathApply (op : MathOp) (a b : Nat) : Option Nat :=
  match op with
  | .add => if a + b ≤ USIZE_MAX then some (a + b) else none
  | .sub => if b ≤ a then some (a - b) else none
  | .mul => if a * b ≤ USIZE_MAX then some (a * b) else none

/-- `CmpOperator` applied to the two popped operands (`a` popped second is
the left operand). -/
def cmpApply (op : CmpOp) (a b : Nat) : Bool :=
  match op with
  | .less => a < b
  | .greater => a > b
  | .equal => a = b

/-- `char::from_u32(v as u32)` succeeds iff the truncated value is a
Unicode scalar value. -/
def validChar (v : Nat) : Bool :=
  v % 2 ^ 32 < 0xD800 || (0xE000 ≤ v % 2 ^ 32 && v % 2 ^ 32 < 0x110000)

/-- The binding loop of `Token::LetBlock`: one `insert(name, pop())` per
name in declaration order (so the first name receives the current stack
top); `none` on stack underflow. Cons-to-front + first-match lookup gives
`HashMap::insert` overwrite semantics. -/
def bindNames (env : Env) (names : List String) (stack : List Nat) :
    Option (Env × List Nat) :=
  match names with
  | [] => some (env, stack)
  | n :: ns =>
    match stack with
    | [] => none
    | v :: s => bindNames ((n, v) :: env) ns s

/-- `Program::interpret_segment`, fuel-indexed. Each call consumes one unit
of fuel; `Outcome.oot` is returned when the fuel runs out. Every `unwrap`
of the code becomes `Outcome.fatal`. -/
def interpSeg (P : FunMap) : Nat → List Token → Env → St → Status → Outcome
  | 0, _, _, _, _ => .oot
  | _ + 1, [], _, st, status => .ok st status
  | fuel + 1, tok :: ts, env, st, status =>
    match tok with
    | .push v => interpSeg P fuel ts env { st with stack := v :: st.stack } status
    | .math op =>
      match st.stack with
      | b :: a :: s =>
        match mathApply op a b with
        | some r => interpSeg P fuel ts env { st with stack := r :: s } status
        | none => .fatal
      | _ => .fatal
    | .cmp op =>
      match st.stack with
      | b :: a :: s =>
        interpSeg P fuel ts env
          { st with stack := (if cmpApply op a b then 1 else 0) :: s } status
      | _ => .fatal
    | .stack .dup =>
      match st.stack with
      | x :: s => interpSeg P fuel ts env { st with stack := x :: x :: s } status
      | [] => .fatal
    | .stack .swap =>
      match st.stack with
      | a :: b :: s => interpSeg P fuel ts env { st with stack := b :: a :: s } status
      | _ => .fatal
    | .stack .over =>
      match st.stack with
      | x :: y :: s =>
        interpSeg P fuel ts env { st with stack := y :: x :: y :: s } status
      | _ => .fatal
    | .stack .rot =>
      match st.stack with
      | a :: b :: c :: s =>
        interpSeg P fuel ts env { st with stack := c :: a :: b :: s } status
      | _ => .fatal
    | .stack .drop =>
      match st.stack with
      | _ :: s => interpSeg P fuel ts env { st with stack := s } status
      | [] => interpSeg P fuel ts env st status
    | .memOp (.pushBytes data) =>
      match st.mem.extend data with
      | some (addr, m) =>
        interpSeg P fuel ts env { st with stack := addr :: st.stack, mem := m } status
      | none => .fatal
    | .memOp .loadByte =>
      match st.stack with
      | addr :: s =>
        match st.mem.get addr with
        | some v => interpSeg P fuel ts env { st with stack := v :: s } status
        | none => .fatal
      | [] => .fatal
    | .memOp .storeByte =>
      match st.stack with
      | v :: addr :: s =>
        match st.mem.set addr (v % 256) with
        | some m => interpSeg P fuel ts env { st with stack := s, mem := m } status
        | none => .fatal
      | _ => .fatal
    | .memOp .free =>
      match st.stack with
      | len :: addr :: s =>
        match st.mem.remove addr len with
        | some m => interpSeg P fuel ts env { st with stack := s, mem := m } status
        | none => .fatal
      | _ => .fatal
    | .memOp .alloc =>
      match st.stack with
      | len :: s =>
        match st.mem.alloc len with
        | some (addr, m) =>
          interpSeg P fuel ts env { st with stack := addr :: s, mem := m } status
        | none => .fatal
      | [] => .fatal
    | .putc =>
      match st.stack with
      | v :: s =>
        if validChar v then
          interpSeg P fuel ts env
            { st with stack := s,
                      out := st.out ++ [.char (v % 2 ^ 32), .flushSink] } status
        else .fatal
      | [] => .fatal
    | .putu =>
      match st.stack with
      | v :: s =>
        interpSeg P fuel ts env
          { st with stack := s, out := st.out ++ [.num v, .flushStdout] } status
      | [] => .fatal
    | .debug =>
      interpSeg P fuel ts env { st with out := st.out ++ [.debugDump] } status
    | .ifBlock trueBlock falseBlock =>
      match st.stack with
      | v :: s =>
        match interpSeg P fuel (if v ≠ 0 then trueBlock else falseBlock) env
            { st with stack := s } status with
        | .ok st' .normal => interpSeg P fuel ts env st' .normal
        | .ok st' stat' => .ok st' stat'
        | e => e
      | [] => .fatal
    | .loopBlock body =>
      match interpSeg P fuel body env st status with
      | .ok st' .cont => interpSeg P fuel (.loopBlock body :: ts) env st' .normal
      | .ok st' .brk => interpSeg P fuel ts env st' .normal
      | .ok st' .normal => interpSeg P fuel (.loopBlock body :: ts) env st' .normal
      | e => e
    | .whileBlock cond body =>
      match interpSeg P fuel cond env st status with
      | .ok st1 stat1 =>
        match st1.stack with
        | v :: s1 =>
          if v = 0 then interpSeg P fuel ts env { st1 with stack := s1 } stat1
          else
            match interpSeg P fuel body env { st1 with stack := s1 } stat1 with
            | .ok st2 .cont =>
              interpSeg P fuel (.whileBlock cond body :: ts) env st2 .normal
            | .ok st2 .brk => interpSeg P fuel ts env st2 .normal
            | .ok st2 .normal =>
              interpSeg P fuel (.whileBlock cond body :: ts) env st2 .normal
            | e => e
        | [] => .fatal
      | e => e
    | .brk => .ok st .brk
    | .cont => .ok st .cont
    | .functionCall name =>
      match P.lookup name with
      | some body =>
        match interpSeg P fuel body env st status with
        | .ok st' stat' => interpSeg P fuel ts env st' stat'
        | e => e
      | none => .fatal
    | .letBlock body names =>
      match bindNames env names st.stack with
      | some (env', stack') =>
        match interpSeg P fuel body env' { st with stack := stack' } status with
        | .ok st' .normal => interpSeg P fuel ts env st' .normal
        | .ok st' stat' => .ok st' stat'
        | e => e
      | none => .fatal
    | .letRef name =>
      match env.lookup name with
      | some v => interpSeg P fuel ts env { st with stack := v :: st.stack } status
      | none => .fatal

/-- `Program::interpret`: fetch `main` (fatal when absent) and run it on a
fresh stack, memory and environment with status `Normal`. -/
def interpret (P : FunMap) (fuel : Nat) : Outcome :=
  match P.lookup "main" with
  | some body => interpSeg P fuel body [] ⟨[], Memory.new, []⟩ .normal
  | none => .fatal

/-! ## Claims -/

/-- Out-of-range list reads yield `none`. -/
theorem list_get_none {α : Type} :
    ∀ (l : List α) (n : Nat), l.length ≤ n → l.get? n = none
  | [], _, _ => rfl
  | _ :: _, 0, h => absurd h (Nat.not_succ_le_zero _)
  | _ :: l, n + 1, h => list_get_none l n (Nat.le_of_succ_le_succ h)

/-- Claim C1, counterexample: on a fresh `Memory` (high-water mark 0),
`get 0` is `none` — not a zero byte — and the evaluator's `LoadByte` at
address 0 aborts the run instead of pushing 0. -/
theorem c1_counterexample :
    Memory.get Memory.new 0 = none ∧
    interpSeg [] 2 [Token.memOp MemOp.loadByte] [] ⟨[0], Memory.new, []⟩
        Status.normal = Outcome.fatal := by
  decide

/-- Claim C1, amended: reading any address at or past the written
high-water mark with the memory's `get` returns `none` (the backing buffer
is NOT grown on reads), and the evaluator's `LoadByte` on such an address
is a fatal error that aborts the run. -/
theorem c1_loadByte_past_highwater :
    (∀ (m : Memory) (i : Nat), m.memory.length ≤ i → m.get i = none) ∧
    (∀ (P : FunMap) (fuel : Nat) (env : Env) (mem : Memory)
       (out : List OutEvent) (addr : Nat) (s : List Nat) (ts : List Token)
       (status : Status), mem.memory.length ≤ addr →
      interpSeg P (fuel + 1) (Token.memOp MemOp.loadByte :: ts) env
          ⟨addr :: s, mem, out⟩ status = Outcome.fatal) := by
  constructor
  · intro m i h
    exact list_get_none m.memory i h
  · intro P fuel env mem out addr s ts status h
    have hget : mem.get addr = none := list_get_none mem.memory addr h
    simp only [interpSeg, hget]

/-- Claim C1, witness for the amended theorem at concrete inputs. -/
theorem c1_witness :
    Memory.get Memory.new 3 = none ∧
    interpSeg [] 1 [Token.memOp MemOp.loadByte] [] ⟨[5], Memory.new, []⟩
        Status.normal = Outcome.fatal :=
  ⟨c1_loadByte_past_highwater.1 Memory.new 3 (by decide),
   c1_loadByte_past_highwater.2 [] 0 [] Memory.new [] 5 [] [] Status.normal
     (by decide)⟩

/-- Claim C2, counterexample: `drop` on an EMPTY stack is not fatal — the
code runs `stack.pop();`, discarding the `None`, and the run continues
normally. -/
theorem c2_counterexample :
    interpSeg [] 2 [Token.stack StackOp.drop] [] ⟨[], Memory.new, []⟩
        Status.normal = Outcome.ok ⟨[], Memory.new, []⟩ Status.normal ∧
    interpSeg [] 2 [Token.stack StackOp.drop] [] ⟨[], Memory.new, []⟩
        Status.normal ≠ Outcome.fatal := by
  decide

/-- A `LetBlock`'s binding loop underflows — `pop().unwrap()` fails — as
soon as the stack holds fewer words than there are names. -/
theorem bindNames_underflow :
    ∀ (names : List String) (env : Env) (stack : List Nat),
      stack.length < names.length → bindNames env names stack = none
  | [], _, _, h => absurd h (Nat.not_lt_zero _)
  | _ :: _, _, [], _ => rfl
  | n :: ns, env, v :: s, h =>
    bindNames_underflow ns ((n, v) :: env) s (Nat.lt_of_succ_lt_succ h)

/-- Claim C2, amended: in EVERY context (program, fuel, environment,
memory, output, status, continuation) and for EVERY stack holding fewer
words than the operation pops, each popping operation of the evaluator
EXCEPT `drop` is a fatal error that aborts the run — arithmetic,
comparison, dup, swap, over, rot, if, the while-condition pop, let
binding, putc, putu and the popping memory operations — while `drop` on
an empty stack is a silent no-op that continues with the rest of the
segment. -/
theorem c2_underflow_fatal :
    (∀ (P : FunMap) (fuel : Nat) (op : MathOp) (ts : List Token) (env : Env)
       (stack : List Nat) (mem : Memory) (out : List OutEvent)
       (status : Status), stack.length < 2 →
      interpSeg P (fuel + 1) (Token.math op :: ts) env ⟨stack, mem, out⟩
        status = Outcome.fatal) ∧
    (∀ (P : FunMap) (fuel : Nat) (op : CmpOp) (ts : List Token) (env : Env)
       (stack : List Nat) (mem : Memory) (out : List OutEvent)
       (status : Status), stack.length < 2 →
      interpSeg P (fuel + 1) (Token.cmp op :: ts) env ⟨stack, mem, out⟩
        status = Outcome.fatal) ∧
    (∀ (P : FunMap) (fuel : Nat) (ts : List Token) (env : Env)
       (stack : List Nat) (mem : Memory) (out : List OutEvent)
       (status : Status), stack.length < 1 →
      interpSeg P (fuel + 1) (Token.stack StackOp.dup :: ts) env
        ⟨stack, mem, out⟩ status = Outcome.fatal) ∧
    (∀ (P : FunMap) (fuel : Nat) (ts : List Token) (env : Env)
       (stack : List Nat) (mem : Memory) (out : List OutEvent)
       (status : Status), stack.length < 2 →
      interpSeg P (fuel + 1) (Token.stack StackOp.swap :: ts) env
        ⟨stack, mem, out⟩ status = Outcome.fatal) ∧
    (∀ (P : FunMap) (fuel : Nat) (ts : List Token) (env : Env)
       (stack : List Nat) (mem : Memory) (out : List OutEvent)
       (status : Status), stack.length < 2 →
      interpSeg P (fuel + 1) (Token.stack StackOp.over :: ts) env
        ⟨stack, mem, out⟩ status = Outcome.fatal) ∧
    (∀ (P : FunMap) (fuel : Nat) (ts : List Token) (env : Env)
       (stack : List Nat) (mem : Memory) (out : List OutEvent)
       (status : Status), stack.length < 3 →
      interpSeg P (fuel + 1) (Token.stack StackOp.rot :: ts) env
        ⟨stack, mem, out⟩ status = Outcome.fatal) ∧
    (∀ (P : FunMap) (fuel : Nat) (trueBlock falseBlock ts : List Token)
       (env : Env) (mem : Memory) (out : List OutEvent) (status : Status),
      interpSeg P (fuel + 1) (Token.ifBlock trueBlock falseBlock :: ts) env
        ⟨[], mem, out⟩ status = Outcome.fatal) ∧
    (∀ (P : FunMap) (fuel : Nat) (cond body ts : List Token) (env : Env)
       (st st1 : St) (status stat1 : Status),
      interpSeg P fuel cond env st status = Outcome.ok st1 stat1 →
      st1.stack = [] →
      interpSeg P (fuel + 1) (Token.whileBlock cond body :: ts) env st
        status = Outcome.fatal) ∧
    (∀ (P : FunMap) (fuel : Nat) (body ts : List Token)
       (names : List String) (env : Env) (stack : List Nat) (mem : Memory)
       (out : List OutEvent) (status : Status),
      stack.length < names.length →
      interpSeg P (fuel + 1) (Token.letBlock body names :: ts) env
        ⟨stack, mem, out⟩ status = Outcome.fatal) ∧
    (∀ (P : FunMap) (fuel : Nat) (ts : List Token) (env : Env)
       (mem : Memory) (out : List OutEvent) (status : Status),
      interpSeg P (fuel + 1) (Token.putc :: ts) env ⟨[], mem, out⟩ status =
        Outcome.fatal) ∧
    (∀ (P : FunMap) (fuel : Nat) (ts : List Token) (env : Env)
       (mem : Memory) (out : List OutEvent) (status : Status),
      interpSeg P (fuel + 1) (Token.putu :: ts) env ⟨[], mem, out⟩ status =
        Outcome.fatal) ∧
    (∀ (P : FunMap) (fuel : Nat) (ts : List Token) (env : Env)
       (mem : Memory) (out : List OutEvent) (status : Status),
      interpSeg P (fuel + 1) (Token.memOp MemOp.loadByte :: ts) env
        ⟨[], mem, out⟩ status = Outcome.fatal) ∧
    (∀ (P : FunMap) (fuel : Nat) (ts : List Token) (env : Env)
       (stack : List Nat) (mem : Memory) (out : List OutEvent)
       (status : Status), stack.length < 2 →
      interpSeg P (fuel + 1) (Token.memOp MemOp.storeByte :: ts) env
        ⟨stack, mem, out⟩ status = Outcome.fatal) ∧
    (∀ (P : FunMap) (fuel : Nat) (ts : List Token) (env : Env)
       (mem : Memory) (out : List OutEvent) (status : Status),
      interpSeg P (fuel + 1) (Token.memOp MemOp.alloc :: ts) env
        ⟨[], mem, out⟩ status = Outcome.fatal) ∧
    (∀ (P : FunMap) (fuel : Nat) (ts : List Token) (env : Env)
       (stack : List Nat) (mem : Memory) (out : List OutEvent)
       (status : Status), stack.length < 2 →
      interpSeg P (fuel + 1) (Token.memOp MemOp.free :: ts) env
        ⟨stack, mem, out⟩ status = Outcome.fatal) ∧
    (∀ (P : FunMap) (fuel : Nat) (ts : List Token) (env : Env)
       (mem : Memory) (out : List OutEvent) (status : Status),
      interpSeg P (fuel + 1) (Token.stack StackOp.drop :: ts) env
        ⟨[], mem, out⟩ status = interpSeg P fuel ts env ⟨[], mem, out⟩
        status) := by
  refine ⟨?_, ?_, ?_, ?_, ?_, ?_, ?_, ?_, ?_, ?_, ?_, ?_, ?_, ?_, ?_, ?_⟩
  · intro P fuel op ts env stack mem out status h
    rcases stack with _ | ⟨x, _ | ⟨y, s⟩⟩
    · rfl
    · rfl
    · simp only [List.length_cons] at h; omega
  · intro P fuel op ts env stack mem out status h
    rcases stack with _ | ⟨x, _ | ⟨y, s⟩⟩
    · rfl
    · rfl
    · simp only [List.length_cons] at h; omega
  · intro P fuel ts env stack mem out status h
    rcases stack with _ | ⟨x, s⟩
    · rfl
    · simp only [List.length_cons] at h; omega
  · intro P fuel ts env stack mem out status h
    rcases stack with _ | ⟨x, _ | ⟨y, s⟩⟩
    · rfl
    · rfl
    · simp only [List.length_cons] at h; omega
  · intro P fuel ts env stack mem out status h
    rcases stack with _ | ⟨x, _ | ⟨y, s⟩⟩
    · rfl
    · rfl
    · simp only [List.length_cons] at h; omega
  · intro P fuel ts env stack mem out status h
    rcases stack with _ | ⟨x, _ | ⟨y, _ | ⟨z, s⟩⟩⟩
    · rfl
    · rfl
    · rfl
    · simp only [List.length_cons] at h; omega
  · intro P fuel trueBlock falseBlock ts env mem out status
    rfl
  · intro P fuel cond body ts env st st1 status stat1 h hs
    simp only [interpSeg, h, hs]
  · intro P fuel body ts names env stack mem out status h
    have hb : bindNames env names stack = none := bindNames_underflow names env stack h
    simp only [interpSeg, hb]
  · intro P fuel ts env mem out status
    rfl
  · intro P fuel ts env mem out status
    rfl
  · intro P fuel ts env mem out status
    rfl
  · intro P fuel ts env stack mem out status h
    rcases stack with _ | ⟨x, _ | ⟨y, s⟩⟩
    · rfl
    · rfl
    · simp only [List.length_cons] at h; omega
  · intro P fuel ts env mem out status
    rfl
  · intro P fuel ts env stack mem out status h
    rcases stack with _ | ⟨x, _ | ⟨y, s⟩⟩
    · rfl
    · rfl
    · simp only [List.length_cons] at h; omega
  · intro P fuel ts env mem out status
    rfl

/-- Claim C2, witness: every underflow clause of `c2_underflow_fatal`
applied at concrete inputs, each discharging its stack-shortness (or
empty-condition-stack) hypothesis, plus the `drop` no-op clause. -/
theorem c2_witness :
    interpSeg [] 1 [Token.math MathOp.sub] [] ⟨[5], Memory.new, []⟩
        Status.normal = Outcome.fatal ∧
    interpSeg [] 1 [Token.cmp CmpOp.less] [] ⟨[5], Memory.new, []⟩
        Status.normal = Outcome.fatal ∧
    interpSeg [] 1 [Token.stack StackOp.dup] [] ⟨[], Memory.new, []⟩
        Status.normal = Outcome.fatal ∧
    interpSeg [] 1 [Token.stack StackOp.swap] [] ⟨[5], Memory.new, []⟩
        Status.normal = Outcome.fatal ∧
    interpSeg [] 1 [Token.stack StackOp.over] [] ⟨[5], Memory.new, []⟩
        Status.normal = Outcome.fatal ∧
    interpSeg [] 1 [Token.stack StackOp.rot] [] ⟨[6, 5], Memory.new, []⟩
        Status.normal = Outcome.fatal ∧
    interpSeg [] 1 [Token.ifBlock [] []] [] ⟨[], Memory.new, []⟩
        Status.normal = Outcome.fatal ∧
    interpSeg [] 2 [Token.whileBlock [] []] [] ⟨[], Memory.new, []⟩
        Status.normal = Outcome.fatal ∧
    interpSeg [] 1 [Token.letBlock [] ["a"]] [] ⟨[], Memory.new, []⟩
        Status.normal = Outcome.fatal ∧
    interpSeg [] 1 [Token.putc] [] ⟨[], Memory.new, []⟩
        Status.normal = Outcome.fatal ∧
    interpSeg [] 1 [Token.putu] [] ⟨[], Memory.new, []⟩
        Status.normal = Outcome.fatal ∧
    interpSeg [] 1 [Token.memOp MemOp.loadByte] [] ⟨[], Memory.new, []⟩
        Status.normal = Outcome.fatal ∧
    interpSeg [] 1 [Token.memOp MemOp.storeByte] [] ⟨[5], Memory.new, []⟩
        Status.normal = Outcome.fatal ∧
    interpSeg [] 1 [Token.memOp MemOp.alloc] [] ⟨[], Memory.new, []⟩
        Status.normal = Outcome.fatal ∧
    interpSeg [] 1 [Token.memOp MemOp.free] [] ⟨[5], Memory.new, []⟩
        Status.normal = Outcome.fatal ∧
    interpSeg [] 1 [Token.stack StackOp.drop] [] ⟨[], Memory.new, []⟩
        Status.normal = interpSeg [] 0 [] [] ⟨[], Memory.new, []⟩
        Status.normal :=
  ⟨c2_underflow_fatal.1 [] 0 MathOp.sub [] [] [5] Memory.new []
     Status.normal (by decide),
   c2_underflow_fatal.2.1 [] 0 CmpOp.less [] [] [5] Memory.new []
     Status.normal (by decide),
   c2_underflow_fatal.2.2.1 [] 0 [] [] [] Memory.new [] Status.normal
     (by decide),
   c2_underflow_fatal.2.2.2.1 [] 0 [] [] [5] Memory.new [] Status.normal
     (by decide),
   c2_underflow_fatal.2.2.2.2.1 [] 0 [] [] [5] Memory.new [] Status.normal
     (by decide),
   c2_underflow_fatal.2.2.2.2.2.1 [] 0 [] [] [6, 5] Memory.new []
     Status.normal (by decide),
   c2_underflow_fatal.2.2.2.2.2.2.1 [] 0 [] [] [] [] Memory.new []
     Status.normal,
   c2_underflow_fatal.2.2.2.2.2.2.2.1 [] 1 [] [] [] []
     ⟨[], Memory.new, []⟩ ⟨[], Memory.new, []⟩ Status.normal Status.normal
     (by decide) rfl,
   c2_underflow_fatal.2.2.2.2.2.2.2.2.1 [] 0 [] [] ["a"] [] [] Memory.new
     [] Status.normal (by decide),
   c2_underflow_fatal.2.2.2.2.2.2.2.2.2.1 [] 0 [] [] Memory.new []
     Status.normal,
   c2_underflow_fatal.2.2.2.2.2.2.2.2.2.2.1 [] 0 [] [] Memory.new []
     Status.normal,
   c2_underflow_fatal.2.2.2.2.2.2.2.2.2.2.2.1 [] 0 [] [] Memory.new []
     Status.normal,
   c2_underflow_fatal.2.2.2.2.2.2.2.2.2.2.2.2.1 [] 0 [] [] [5] Memory.new
     [] Status.normal (by decide),
   c2_underflow_fatal.2.2.2.2.2.2.2.2.2.2.2.2.2.1 [] 0 [] [] Memory.new
     [] Status.normal,
   c2_underflow_fatal.2.2.2.2.2.2.2.2.2.2.2.2.2.2.1 [] 0 [] [] [5]
     Memory.new [] Status.normal (by decide),
   c2_underflow_fatal.2.2.2.2.2.2.2.2.2.2.2.2.2.2.2 [] 0 [] [] Memory.new
     [] Status.normal⟩

/-- Claim C3, evaluation at the failing input: from the reachable state
with free list `[(0,2), (4,3), (10, MAX-10)]`, `extend [9,9,9]` first-fits
the extent `(4,3)` at index 1, writes at 4 and returns 4 — but on
exhausting that extent it executes `free.remove(0)`, deleting the extent
`(0,2)` and leaving the empty extent `(7,0)` in the list, instead of
removing the chosen extent; and `alloc` never advances the chosen extent's
start, so `alloc 5` on a fresh memory leaves free list `[(0, MAX-5)]` and
a following `push` hands out address 0 inside the "reserved" range. -/
theorem c3_bug :
    ((Memory.extend Memory.new (List.replicate 10 0)).bind (fun p1 =>
      (p1.2.remove 0 2).bind (fun m2 =>
        (m2.remove 4 3).bind (fun m3 => m3.extend [9, 9, 9])))) =
      some (4, ⟨[0, 0, 0, 0, 9, 9, 9, 0, 0, 0],
                [(7, 0), (10, USIZE_MAX - 10)]⟩) ∧
    ((Memory.extend Memory.new (List.replicate 10 0)).bind (fun p1 =>
      (p1.2.remove 0 2).bind (fun m2 =>
        (m2.remove 4 3).bind (fun m3 => m3.extend [9, 9, 9])))).map
        (fun p => p.2.free) ≠ some [(0, 2), (10, USIZE_MAX - 10)] ∧
    Memory.alloc Memory.new 5 =
      some (0, ⟨[0, 0, 0, 0, 0], [(0, USIZE_MAX - 5)]⟩) ∧
    (Memory.alloc Memory.new 5).bind (fun p => p.2.push 7) =
      some (0, ⟨[7, 0, 0, 0, 0], [(1, USIZE_MAX - 6)]⟩) := by
  decide

/-- Claim C4, evaluation at the failing input: the reachable free list
`[(0,2), (4,3), (10, MAX-10)]` satisfies the claimed invariant, yet after
`extend [9,9,9]` (an exact fit at index 1, whose exhaustion triggers
`free.remove(0)`) the free list is `[(7,0), (10, MAX-10)]`: it contains a
zero-length extent and has lost `(0,2)`, so the invariant is violated. -/
theorem c4_bug :
    ((Memory.extend Memory.new (List.replicate 10 0)).bind (fun p1 =>
      (p1.2.remove 0 2).bind (fun m2 => m2.remove 4 3))).map
        (fun m3 => (freeInvariant m3.free,
          (m3.extend [9, 9, 9]).map (fun p => freeInvariant p.2.free))) =
      some (true, some false) := by
  decide

/-- Claim C5, counterexample: from the state reached by the claimed
sequence (extend `[1,1,1,1]`, extend `[2,2,2]`, push 3, remove `(1,4)`,
the subsequent push), freeing the entire buffer from address 0 does NOT
collapse the free list to `(0, MAX)`: the hole `(2,3)` is still free, so
the result is the overlapping list `[(0,8), (2,3), (8, MAX-8)]`. -/
theorem c5_counterexample :
    ((Memory.extend Memory.new [1, 1, 1, 1]).bind (fun p1 =>
      (p1.2.extend [2, 2, 2]).bind (fun p2 =>
        (p2.2.push 3).bind (fun p3 =>
          (p3.2.remove 1 4).bind (fun m4 =>
            (m4.push 4).bind (fun p5 => p5.2.remove 0 8)))))) =
      some ⟨[0, 0, 0, 0, 0, 0, 0, 0],
            [(0, 8), (2, 3), (8, USIZE_MAX - 8)]⟩ ∧
    ((Memory.extend Memory.new [1, 1, 1, 1]).bind (fun p1 =>
      (p1.2.extend [2, 2, 2]).bind (fun p2 =>
        (p2.2.push 3).bind (fun p3 =>
          (p3.2.remove 1 4).bind (fun m4 =>
            (m4.push 4).bind (fun p5 => p5.2.remove 0 8)))))).map
        Memory.free ≠ some [(0, USIZE_MAX)] := by
  decide

/-- Claim C5, amended: the round trip behaves as claimed — addresses 0, 4,
7, buffer `[1,1,1,1,2,2,2,3]`, then `remove (1,4)` gives free list
`[(1,4), (8, MAX-8)]` with bytes 1..5 zeroed and a subsequent push returns
address 1 — but freeing the entire buffer from address 0 collapses the
free list back to the single extent `(0, MAX)` only from the fully-live
state (before the remove/push detour); from the state after the detour it
yields `[(0,8), (2,3), (8, MAX-8)]` instead. -/
theorem c5_roundtrip :
    Memory.extend Memory.new [1, 1, 1, 1] =
      some (0, ⟨[1, 1, 1, 1], [(4, USIZE_MAX - 4)]⟩) ∧
    Memory.extend ⟨[1, 1, 1, 1], [(4, USIZE_MAX - 4)]⟩ [2, 2, 2] =
      some (4, ⟨[1, 1, 1, 1, 2, 2, 2], [(7, USIZE_MAX - 7)]⟩) ∧
    Memory.push ⟨[1, 1, 1, 1, 2, 2, 2], [(7, USIZE_MAX - 7)]⟩ 3 =
      some (7, ⟨[1, 1, 1, 1, 2, 2, 2, 3], [(8, USIZE_MAX - 8)]⟩) ∧
    Memory.remove ⟨[1, 1, 1, 1, 2, 2, 2, 3], [(8, USIZE_MAX - 8)]⟩ 1 4 =
      some ⟨[1, 0, 0, 0, 0, 2, 2, 3], [(1, 4), (8, USIZE_MAX - 8)]⟩ ∧
    Memory.push ⟨[1, 0, 0, 0, 0, 2, 2, 3], [(1, 4), (8, USIZE_MAX - 8)]⟩ 4 =
      some (1, ⟨[1, 4, 0, 0, 0, 2, 2, 3], [(2, 3), (8, USIZE_MAX - 8)]⟩) ∧
    Memory.remove ⟨[1, 1, 1, 1, 2, 2, 2, 3], [(8, USIZE_MAX - 8)]⟩ 0 8 =
      some ⟨[0, 0, 0, 0, 0, 0, 0, 0], [(0, USIZE_MAX)]⟩ := by
  decide

/-- Claim C6: loop semantics. A `LoopBlock` runs its body repeatedly: a
`Break` status raised by the body resets the status to `Normal` and exits
the loop, a `Continue` status resets it to `Normal` and starts the next
iteration. A `WhileBlock` first evaluates its condition and pops one word:
zero exits the loop (continuing after it), non-zero runs the body with the
same `Break`/`Continue` handling. In particular `loop { 1 break }` executes
its contents exactly once (final stack `[1]`), and a `while` whose
condition yields 0 on the first check executes its body zero times. -/
theorem c6_loops :
    (∀ (P : FunMap) (fuel : Nat) (body ts : List Token) (env : Env)
       (st st' : St) (status : Status),
      interpSeg P fuel body env st status = Outcome.ok st' Status.brk →
      interpSeg P (fuel + 1) (Token.loopBlock body :: ts) env st status =
        interpSeg P fuel ts env st' Status.normal) ∧
    (∀ (P : FunMap) (fuel : Nat) (body ts : List Token) (env : Env)
       (st st' : St) (status : Status),
      interpSeg P fuel body env st status = Outcome.ok st' Status.cont →
      interpSeg P (fuel + 1) (Token.loopBlock body :: ts) env st status =
        interpSeg P fuel (Token.loopBlock body :: ts) env st' Status.normal) ∧
    (∀ (P : FunMap) (fuel : Nat) (cond body ts : List Token) (env : Env)
       (st st1 : St) (status stat1 : Status) (s1 : List Nat),
      interpSeg P fuel cond env st status = Outcome.ok st1 stat1 →
      st1.stack = 0 :: s1 →
      interpSeg P (fuel + 1) (Token.whileBlock cond body :: ts) env st status =
        interpSeg P fuel ts env { st1 with stack := s1 } stat1) ∧
    (∀ (P : FunMap) (fuel : Nat) (cond body ts : List Token) (env : Env)
       (st st1 st2 : St) (status stat1 : Status) (v : Nat) (s1 : List Nat),
      interpSeg P fuel cond env st status = Outcome.ok st1 stat1 →
      st1.stack = v :: s1 → v ≠ 0 →
      interpSeg P fuel body env { st1 with stack := s1 } stat1 =
        Outcome.ok st2 Status.brk →
      interpSeg P (fuel + 1) (Token.whileBlock cond body :: ts) env st status =
        interpSeg P fuel ts env st2 Status.normal) ∧
    (∀ (P : FunMap) (fuel : Nat) (cond body ts : List Token) (env : Env)
       (st st1 st2 : St) (status stat1 : Status) (v : Nat) (s1 : List Nat),
      interpSeg P fuel cond env st status = Outcome.ok st1 stat1 →
      st1.stack = v :: s1 → v ≠ 0 →
      interpSeg P fuel body env { st1 with stack := s1 } stat1 =
        Outcome.ok st2 Status.cont →
      interpSeg P (fuel + 1) (Token.whileBlock cond body :: ts) env st status =
        interpSeg P fuel (Token.whileBlock cond body :: ts) env st2
          Status.normal) ∧
    interpSeg [] 3 [Token.loopBlock [Token.push 1, Token.brk]] []
        ⟨[], Memory.new, []⟩ Status.normal =
      Outcome.ok ⟨[1], Memory.new, []⟩ Status.normal ∧
    interpSeg [] 3 [Token.whileBlock [Token.push 0] [Token.push 7]] []
        ⟨[], Memory.new, []⟩ Status.normal =
      Outcome.ok ⟨[], Memory.new, []⟩ Status.normal := by
  refine ⟨?_, ?_, ?_, ?_, ?_, by decide, by decide⟩
  · intro P fuel body ts env st st' status h
    simp only [interpSeg, h]
  · intro P fuel body ts env st st' status h
    simp only [interpSeg, h]
  · intro P fuel cond body ts env st st1 status stat1 s1 h hs
    simp only [interpSeg, h, hs]
    simp
  · intro P fuel cond body ts env st st1 st2 status stat1 v s1 h hs hv hb
    simp only [interpSeg, h, hs, if_neg hv, hb]
  · intro P fuel cond body ts env st st1 st2 status stat1 v s1 h hs hv hb
    simp only [interpSeg, h, hs, if_neg hv, hb]

/-- Claim C6, witness: the loop and while clauses of `c6_loops` applied at
concrete inputs (body `[break]`, condition `[0]` resp. `[1]`). -/
theorem c6_witness :
    interpSeg [] 2 [Token.loopBlock [Token.brk]] [] ⟨[], Memory.new, []⟩
        Status.normal = interpSeg [] 1 [] [] ⟨[], Memory.new, []⟩
        Status.normal ∧
    interpSeg [] 2 [Token.loopBlock [Token.cont]] [] ⟨[], Memory.new, []⟩
        Status.normal =
      interpSeg [] 1 [Token.loopBlock [Token.cont]] [] ⟨[], Memory.new, []⟩
        Status.normal ∧
    interpSeg [] 3 [Token.whileBlock [Token.push 0] []] []
        ⟨[], Memory.new, []⟩ Status.normal =
      interpSeg [] 2 [] [] ⟨[], Memory.new, []⟩ Status.normal ∧
    interpSeg [] 3 [Token.whileBlock [Token.push 1] [Token.brk]] []
        ⟨[], Memory.new, []⟩ Status.normal =
      interpSeg [] 2 [] [] ⟨[], Memory.new, []⟩ Status.normal ∧
    interpSeg [] 3 [Token.whileBlock [Token.push 1] [Token.cont]] []
        ⟨[], Memory.new, []⟩ Status.normal =
      interpSeg [] 2 [Token.whileBlock [Token.push 1] [Token.cont]] []
        ⟨[], Memory.new, []⟩ Status.normal :=
  ⟨c6_loops.1 [] 1 [Token.brk] [] [] ⟨[], Memory.new, []⟩
      ⟨[], Memory.new, []⟩ Status.normal (by decide),
   c6_loops.2.1 [] 1 [Token.cont] [] [] ⟨[], Memory.new, []⟩
      ⟨[], Memory.new, []⟩ Status.normal (by decide),
   c6_loops.2.2.1 [] 2 [Token.push 0] [] [] [] ⟨[], Memory.new, []⟩
      ⟨[0], Memory.new, []⟩ Status.normal Status.normal [] (by decide) rfl,
   c6_loops.2.2.2.1 [] 2 [Token.push 1] [Token.brk] [] [] ⟨[], Memory.new, []⟩
      ⟨[1], Memory.new, []⟩ ⟨[], Memory.new, []⟩ Status.normal Status.normal
      1 [] (by decide) rfl (by decide) (by decide),
   c6_loops.2.2.2.2.1 [] 2 [Token.push 1] [Token.cont] [] []
      ⟨[], Memory.new, []⟩ ⟨[1], Memory.new, []⟩ ⟨[], Memory.new, []⟩
      Status.normal Status.normal 1 [] (by decide) rfl (by decide)
      (by decide)⟩

/-- Claim C7: a `LetBlock` with names `[n1, n2]` pops one word per name in
declaration order — the first-declared name `n1` is bound to the value
popped first, the current stack top — builds a new environment equal to
the parent extended/overridden by these bindings, evaluates the body under
it, and the code after the block runs under the parent environment again.
With names `a b` and stack top `Y` over `X`, `a = Y` and `b = X`, and the
body `a b` pushes `Y` then `X`. -/
theorem c7_letBlock :
    (∀ (P : FunMap) (fuel : Nat) (body ts : List Token) (n1 n2 : String)
       (X Y : Nat) (s : List Nat) (env : Env) (mem : Memory)
       (out : List OutEvent) (status : Status),
      interpSeg P (fuel + 1) (Token.letBlock body [n1, n2] :: ts) env
          ⟨Y :: X :: s, mem, out⟩ status =
        match interpSeg P fuel body ((n2, X) :: (n1, Y) :: env)
            ⟨s, mem, out⟩ status with
        | .ok st' .normal => interpSeg P fuel ts env st' .normal
        | .ok st' stat' => .ok st' stat'
        | e => e) ∧
    (∀ (n1 n2 : String) (X Y : Nat) (env : Env), n1 ≠ n2 →
      ((n2, X) :: (n1, Y) :: env).lookup n1 = some Y ∧
      ((n2, X) :: (n1, Y) :: env).lookup n2 = some X) ∧
    (∀ X Y : Nat,
      interpSeg [] 4 [Token.letBlock [Token.letRef "a", Token.letRef "b"]
          ["a", "b"]] [] ⟨[Y, X], Memory.new, []⟩ Status.normal =
        Outcome.ok ⟨[X, Y], Memory.new, []⟩ Status.normal) := by
  refine ⟨?_, ?_, ?_⟩
  · intro P fuel body ts n1 n2 X Y s env mem out status
    rfl
  · intro n1 n2 X Y env h
    have hb : (n1 == n2) = false := beq_eq_false_iff_ne.mpr h
    constructor
    · simp [List.lookup, hb]
    · simp [List.lookup]
  · intro X Y
    simp [interpSeg, bindNames, List.lookup]

/-- Claim C7, witness: the general clauses of `c7_letBlock` at concrete
inputs. -/
theorem c7_witness :
    interpSeg [] 2 [Token.letBlock [] ["u", "w"]] [] ⟨[9, 8], Memory.new, []⟩
        Status.normal =
      (match interpSeg [] 1 [] [("w", 8), ("u", 9)] ⟨[], Memory.new, []⟩
          Status.normal with
       | .ok st' .normal => interpSeg [] 1 [] [] st' .normal
       | .ok st' stat' => .ok st' stat'
       | e => e) ∧
    ([("w", 8), ("u", 9)].lookup "u" = some 9 ∧
     [("w", 8), ("u", 9)].lookup "w" = some 8) ∧
    interpSeg [] 4 [Token.letBlock [Token.letRef "a", Token.letRef "b"]
        ["a", "b"]] [] ⟨[4, 3], Memory.new, []⟩ Status.normal =
      Outcome.ok ⟨[3, 4], Memory.new, []⟩ Status.normal :=
  ⟨c7_letBlock.1 [] 1 [] [] "u" "w" 8 9 [] [] Memory.new [] Status.normal,
   c7_letBlock.2.1 "u" "w" 8 9 [] (by decide),
   c7_letBlock.2.2 3 4⟩

/-- Claim C8, evaluation at the failing input: `Putu` on stack `[69]`
writes the decimal form to the sink but then flushes the process stdout
(`std::io::stdout().flush()`), NOT the output sink — no `flushSink` event
appears in its trace — whereas `Putc` does flush the sink
(`io.flush()`). -/
theorem c8_bug :
    interpSeg [] 2 [Token.putu] [] ⟨[69], Memory.new, []⟩ Status.normal =
      Outcome.ok ⟨[], Memory.new,
        [OutEvent.num 69, OutEvent.flushStdout]⟩ Status.normal ∧
    OutEvent.flushSink ∉ [OutEvent.num 69, OutEvent.flushStdout] ∧
    interpSeg [] 2 [Token.putc] [] ⟨[65], Memory.new, []⟩ Status.normal =
      Outcome.ok ⟨[], Memory.new,
        [OutEvent.char 65, OutEvent.flushSink]⟩ Status.normal := by
  decide

/-- Claim C9: arithmetic and comparison pop two words with the
second-popped word as the left operand: with stack `[.., a, b]` (`b` on
top), `-` pushes `a - b` (when it does not underflow; `+`/`*` likewise
when they do not overflow `usize`), `<` pushes 1 iff `a < b`, `>` pushes
1 iff `a > b`, `=` pushes 1 iff `a = b`, and comparisons push exactly
1 for true and 0 for false. -/
theorem c9_arith :
    ∀ (P : FunMap) (fuel : Nat) (ts : List Token) (env : Env) (a b : Nat)
      (s : List Nat) (mem : Memory) (out : List OutEvent) (status : Status),
      (b ≤ a →
        interpSeg P (fuel + 1) (Token.math MathOp.sub :: ts) env
            ⟨b :: a :: s, mem, out⟩ status =
          interpSeg P fuel ts env ⟨(a - b) :: s, mem, out⟩ status) ∧
      (a + b ≤ USIZE_MAX →
        interpSeg P (fuel + 1) (Token.math MathOp.add :: ts) env
            ⟨b :: a :: s, mem, out⟩ status =
          interpSeg P fuel ts env ⟨(a + b) :: s, mem, out⟩ status) ∧
      (a * b ≤ USIZE_MAX →
        interpSeg P (fuel + 1) (Token.math MathOp.mul :: ts) env
            ⟨b :: a :: s, mem, out⟩ status =
          interpSeg P fuel ts env ⟨(a * b) :: s, mem, out⟩ status) ∧
      (interpSeg P (fuel + 1) (Token.cmp CmpOp.less :: ts) env
          ⟨b :: a :: s, mem, out⟩ status =
        interpSeg P fuel ts env
          ⟨(if a < b then 1 else 0) :: s, mem, out⟩ status) ∧
      (interpSeg P (fuel + 1) (Token.cmp CmpOp.greater :: ts) env
          ⟨b :: a :: s, mem, out⟩ status =
        interpSeg P fuel ts env
          ⟨(if a > b then 1 else 0) :: s, mem, out⟩ status) ∧
      (interpSeg P (fuel + 1) (Token.cmp CmpOp.equal :: ts) env
          ⟨b :: a :: s, mem, out⟩ status =
        interpSeg P fuel ts env
          ⟨(if a = b then 1 else 0) :: s, mem, out⟩ status) := by
  intro P fuel ts env a b s mem out status
  refine ⟨?_, ?_, ?_, ?_, ?_, ?_⟩
  · intro h
    simp only [interpSeg, mathApply, if_pos h]
  · intro h
    simp only [interpSeg, mathApply, if_pos h]
  · intro h
    simp only [interpSeg, mathApply, if_pos h]
  · simp only [interpSeg, cmpApply, decide_eq_true_eq]
  · simp only [interpSeg, cmpApply, decide_eq_true_eq]
  · simp only [interpSeg, cmpApply, decide_eq_true_eq]

/-- Claim C9, witness: `c9_arith` at `a = 7`, `b = 3`. -/
theorem c9_witness :
    interpSeg [] 1 [Token.math MathOp.sub] [] ⟨[3, 7], Memory.new, []⟩
        Status.normal =
      interpSeg [] 0 [] [] ⟨[4], Memory.new, []⟩ Status.normal ∧
    interpSeg [] 1 [Token.math MathOp.add] [] ⟨[3, 7], Memory.new, []⟩
        Status.normal =
      interpSeg [] 0 [] [] ⟨[10], Memory.new, []⟩ Status.normal ∧
    interpSeg [] 1 [Token.math MathOp.mul] [] ⟨[3, 7], Memory.new, []⟩
        Status.normal =
      interpSeg [] 0 [] [] ⟨[21], Memory.new, []⟩ Status.normal ∧
    interpSeg [] 1 [Token.cmp CmpOp.less] [] ⟨[3, 7], Memory.new, []⟩
        Status.normal =
      interpSeg [] 0 [] [] ⟨[(if (7 : Nat) < 3 then 1 else 0)], Memory.new,
        []⟩ Status.normal :=
  ⟨(c9_arith [] 0 [] [] 7 3 [] Memory.new [] Status.normal).1 (by decide),
   (c9_arith [] 0 [] [] 7 3 [] Memory.new [] Status.normal).2.1 (by decide),
   (c9_arith [] 0 [] [] 7 3 [] Memory.new [] Status.normal).2.2.1
     (by decide),
   (c9_arith [] 0 [] [] 7 3 [] Memory.new [] Status.normal).2.2.2.1⟩

/-- Claim C10: `FunctionCall` does not inspect the control status after the
callee returns: whatever status the callee's body ends with (including
`Break`/`Continue` raised without an enclosing loop inside that body), the
remaining tokens of the calling segment are still executed. Concretely,
with `fn f { break }`, the segment `f 7` pushes 7 and finishes with status
`Break`, which is only consumed by an enclosing `LoopBlock` when the
segment ends (the loop then exits after one iteration with status reset to
`Normal`). -/
theorem c10_functionCall :
    (∀ (P : FunMap) (fuel : Nat) (fname : String) (body ts : List Token)
       (env : Env) (st st' : St) (status stat' : Status),
      P.lookup fname = some body →
      interpSeg P fuel body env st status = Outcome.ok st' stat' →
      interpSeg P (fuel + 1) (Token.functionCall fname :: ts) env st status =
        interpSeg P fuel ts env st' stat') ∧
    interpSeg [("f", [Token.brk])] 10 [Token.functionCall "f", Token.push 7]
        [] ⟨[], Memory.new, []⟩ Status.normal =
      Outcome.ok ⟨[7], Memory.new, []⟩ Status.brk ∧
    interpSeg [("f", [Token.brk])] 10
        [Token.loopBlock [Token.functionCall "f", Token.push 7]] []
        ⟨[], Memory.new, []⟩ Status.normal =
      Outcome.ok ⟨[7], Memory.new, []⟩ Status.normal := by
  refine ⟨?_, by decide, by decide⟩
  intro P fuel fname body ts env st st' status stat' hf hb
  simp only [interpSeg, hf, hb]

/-- Claim C10, witness: the general clause of `c10_functionCall` with a
callee whose body ends in status `Break`. -/
theorem c10_witness :
    interpSeg [("f", [Token.brk])] 2 [Token.functionCall "f", Token.push 7]
        [] ⟨[], Memory.new, []⟩ Status.normal =
      interpSeg [("f", [Token.brk])] 1 [Token.push 7] []
        ⟨[], Memory.new, []⟩ Status.brk :=
  c10_functionCall.1 [("f", [Token.brk])] 1 "f" [Token.brk] [Token.push 7]
    [] ⟨[], Memory.new, []⟩ ⟨[], Memory.new, []⟩ Status.normal Status.brk
    (by simp [List.lookup]) (by decide)

end StackLang
